import Mathlib

/-!
Shallow embedding of `src/search/genius.ts` (the `geniusSearch` function of
the KiraTools repository) and proofs of the specification's claims about it.

The TypeScript interfaces are embedded as Lean structures field for field
(numbers as `Int`, strings as `String`, booleans as `Bool`).  The upstream
payload is weakly typed at runtime, and the one runtime absence the code can
actually meet on the path the spec discusses is the deeply nested
`primary_artists` field; it is therefore embedded as
`Option (List PrimaryArtist)`, with `none` standing for an absent field.
Iterating `for (const a of undefined)` throws a `TypeError` in JavaScript,
which the embedding renders as an `Except.error` that propagates to the
function's outermost `try`/`catch`.

The HTTP request (`axios.get`) is an external collaborator: `geniusSearch`
is parametrised over its outcome, an `Except String ApiResponse` whose
`error` case stands for any transport or parse failure thrown by the fetch.
-/

namespace Genius

/-- Embeds `interface OptionsParameters { limit: number }`. -/
structure OptionsParameters where
  limit : Int
deriving DecidableEq, Repr

/-- Embeds `interface Meta { status: number }`. -/
structure Meta where
  status : Int
deriving DecidableEq, Repr

/-- Embeds `interface Artist`. -/
structure Artist where
  id : Int
  name : String
  slug : String
  is_verified : Bool
  is_meme_verified : Bool
  iq : Int
  image_url : String
  header_image_url : String
  url : String
deriving DecidableEq, Repr

/-- Embeds `interface PrimaryArtist extends Artist`. -/
structure PrimaryArtist extends Artist where
  api_path : String
  index_character : String
deriving DecidableEq, Repr

/-- Embeds `interface ReleaseDateComponents`. -/
structure ReleaseDateComponents where
  year : Int
  month : Int
  day : Int
deriving DecidableEq, Repr

/-- Embeds `interface SongStats`. -/
structure SongStats where
  unreviewed_annotations : Int
  hot : Bool
  pageviews : Int
deriving DecidableEq, Repr

/-- Embeds `interface HighlightRange { start; end }` (`end` is a Lean
keyword, hence the guillemets). -/
structure HighlightRange where
  start : Int
  «end» : Int
deriving DecidableEq, Repr

/-- Embeds `interface Highlight`. -/
structure Highlight where
  property : String
  value : String
  snippet : Bool
  ranges : List HighlightRange
deriving DecidableEq, Repr

/-- Embeds `interface Song`.  The TypeScript declaration types
`primary_artists` as `PrimaryArtist[]`, but the raw payload is parsed on
ambient trust and the field can be absent at runtime; absence is embedded as
`none`. -/
structure Song where
  _type : String
  annotation_count : Int
  api_path : String
  artist_names : String
  full_title : String
  header_image_thumbnail_url : String
  header_image_url : String
  id : Int
  instrumental : Bool
  lyrics_owner_id : Int
  lyrics_state : String
  lyrics_updated_at : Int
  path : String
  primary_artist_names : String
  pyongs_count : Int
  relationships_index_url : String
  release_date_components : ReleaseDateComponents
  release_date_for_display : String
  release_date_with_abbreviated_month_for_display : String
  song_art_image_thumbnail_url : String
  song_art_image_url : String
  stats : SongStats
  title : String
  title_with_featured : String
  updated_by_human_at : Int
  url : String
  featured_artists : List Artist
  primary_artist : PrimaryArtist
  primary_artists : Option (List PrimaryArtist)
deriving DecidableEq, Repr

/-- Embeds `interface Hit { highlights; index; type; result }`. -/
structure Hit where
  highlights : List Highlight
  index : String
  type : String
  result : Song
deriving DecidableEq, Repr

/-- Embeds `interface Section { type; hits }`. -/
structure Section where
  type : String
  hits : List Hit
deriving DecidableEq, Repr

/-- Embeds the anonymous `response` object of `ApiResponse`. -/
structure ApiResponseBody where
  sections : List Section
deriving DecidableEq, Repr

/-- Embeds `interface ApiResponse { meta; response: { sections } }`. -/
structure ApiResponse where
  meta : Meta
  response : ApiResponseBody
deriving DecidableEq, Repr

/-- Embeds `interface ArtistInfo`. -/
structure ArtistInfo where
  name : String
  is_verified : Bool
  header_image_url : String
  image_url : String
deriving DecidableEq, Repr

/-- Embeds `interface SongResponse`. -/
structure SongResponse where
  title : String
  full_title : String
  url_song : String
  url_lyric : String
  header_image_url : String
  header_image_thumbnail_url : String
  date : String
  artist : List ArtistInfo
deriving DecidableEq, Repr

/-- Embeds one of the three section extractions
`data.response.sections.filter(section => section.type === t)[0]?.hits || []`:
the hits of the first section whose `type` equals `tag`, or `[]` when no such
section exists (`[0]` yields `undefined`, optional chaining turns it into
`undefined`, and `|| []` defaults it). -/
def sectionHits (sections : List Section) (tag : String) : List Hit :=
  (((sections.filter fun sec => sec.type == tag).head?).map Section.hits).getD []

/-- Embeds `topHit.concat(song, lyric)`: the concatenated hit list the
function goes on to filter. -/
def consideredHits (sections : List Section) : List Hit :=
  sectionHits sections "top_hit" ++ sectionHits sections "song" ++ sectionHits sections "lyric"

/-- Embeds `.filter(hit => hit.type === 'song')` applied to the
concatenation: the retained song hits, in discovery order. -/
def songHits (data : ApiResponse) : List Hit :=
  (consideredHits data.response.sections).filter fun hit => hit.type == "song"

/-- Embeds the body of the inner `for (const artist of ...)` loop: one
`ArtistInfo` pushed per primary artist, fields copied verbatim. -/
def artistSummaryOf (artist : PrimaryArtist) : ArtistInfo :=
  { name := artist.name
    is_verified := artist.is_verified
    header_image_url := artist.header_image_url
    image_url := artist.image_url }

/-- Embeds the inner loop `for (const artist of song.result.primary_artists)`.
When the field is absent (`none`), `for...of undefined` throws a `TypeError`,
embedded as `Except.error`; otherwise each artist is projected in order. -/
def projectArtists : Option (List PrimaryArtist) → Except String (List ArtistInfo)
  | none => .error "TypeError: song.result.primary_artists is not iterable"
  | some artists => .ok (artists.map artistSummaryOf)

/-- Embeds the body of the outer `for (const song of songs)` loop: project
the artists, then push one `SongResponse` with the listed fields copied from
`song.result`. -/
def buildSongResponse (hit : Hit) : Except String SongResponse :=
  match projectArtists hit.result.primary_artists with
  | .error e => .error e
  | .ok artistInfo =>
    .ok { title := hit.result.title
          full_title := hit.result.full_title
          url_song := hit.result.relationships_index_url
          url_lyric := hit.result.url
          header_image_url := hit.result.header_image_url
          header_image_thumbnail_url := hit.result.header_image_thumbnail_url
          date := hit.result.release_date_for_display
          artist := artistInfo }

/-- Embeds the outer `for` loop over `songs`, accumulating `songsResponse` in
order; a throw from any iteration aborts the loop (the partial array is
discarded) and propagates to the `catch`. -/
def buildAll : List Hit → Except String (List SongResponse)
  | [] => .ok []
  | hit :: rest =>
    match buildSongResponse hit with
    | .error e => .error e
    | .ok r =>
      match buildAll rest with
      | .error e => .error e
      | .ok rs => .ok (r :: rs)

/-- Embeds the whole normalisation pass over a fetched payload: section
extraction, concatenation, entity filtering, and the projection loop. -/
def normalize (data : ApiResponse) : Except String (List SongResponse) :=
  buildAll (songHits data)

/-- Embeds JavaScript `xs.slice(0, stop)`: a negative `stop` counts from the
end (clamped at zero), a `stop` past the length yields the whole array. -/
def sliceTo (xs : List α) (stop : Int) : List α :=
  if stop < 0 then xs.take ((xs.length + stop).toNat) else xs.take stop.toNat

/-- Embeds the tail of `geniusSearch`: `if (options?.limit) { ... }` with the
two return branches, falling through to `undefined` (here `none`) when
`options` is absent or `options.limit` is falsy (`0`).  Note `0` is falsy in
JavaScript, so a zero limit takes the fall-through. -/
def applyLimit (songsResponse : List SongResponse) :
    Option OptionsParameters → Option (List SongResponse)
  | none => none
  | some o =>
    if o.limit ≠ 0 then
      if (songsResponse.length : Int) ≤ o.limit then some songsResponse
      else some (sliceTo songsResponse o.limit)
    else none

/-- Embeds `geniusSearch`.  `fetched` is the outcome of the
`axios.get` call (`error` = any transport/parse throw).  The `try`/`catch`
converts every error — of the fetch or of the normalisation loop — into
`undefined` (`none`) after logging it; the embedding drops the log. -/
def geniusSearch : Except String ApiResponse → Option OptionsParameters →
    Option (List SongResponse)
  | .error _, _ => none
  | .ok data, options =>
    match normalize data with
    | .error _ => none
    | .ok songsResponse => applyLimit songsResponse options

/-- Stated from the spec's words, for comparison with `consideredHits`:
the hits of the *first* section bearing `tag` (`List.find?`), empty when the
tag is missing. -/
def specFirstSectionHits (sections : List Section) (tag : String) : List Hit :=
  match sections.find? (fun sec => sec.type == tag) with
  | some sec => sec.hits
  | none => []

/-! Concrete fixtures, used by the witness and counterexample theorems. -/

/-- A concrete primary artist (test fixture). -/
def queenArtist : PrimaryArtist :=
  { id := 1, name := "Queen", slug := "queen", is_verified := true,
    is_meme_verified := false, iq := 100, image_url := "queen-img",
    header_image_url := "queen-hdr", url := "queen-url",
    api_path := "/artists/1", index_character := "q" }

/-- A second concrete primary artist (test fixture). -/
def bowieArtist : PrimaryArtist :=
  { id := 2, name := "David Bowie", slug := "david-bowie", is_verified := false,
    is_meme_verified := false, iq := 50, image_url := "bowie-img",
    header_image_url := "bowie-hdr", url := "bowie-url",
    api_path := "/artists/2", index_character := "d" }

/-- A concrete raw song record whose primary-artist field holds `artists`
(test fixture); `none` stands for the field being absent at runtime. -/
def sampleSong (artists : Option (List PrimaryArtist)) : Song :=
  { _type := "song", annotation_count := 0, api_path := "/songs/1",
    artist_names := "Queen", full_title := "Bohemian Rhapsody by Queen",
    header_image_thumbnail_url := "thumb", header_image_url := "hdr",
    id := 1, instrumental := false, lyrics_owner_id := 0,
    lyrics_state := "complete", lyrics_updated_at := 0, path := "/p",
    primary_artist_names := "Queen", pyongs_count := 0,
    relationships_index_url := "rel-url",
    release_date_components := { year := 1975, month := 10, day := 31 },
    release_date_for_display := "October 31, 1975",
    release_date_with_abbreviated_month_for_display := "Oct. 31, 1975",
    song_art_image_thumbnail_url := "sa-thumb", song_art_image_url := "sa",
    stats := { unreviewed_annotations := 0, hot := false, pageviews := 0 },
    title := "Bohemian Rhapsody", title_with_featured := "Bohemian Rhapsody",
    updated_by_human_at := 0, url := "lyric-url", featured_artists := [],
    primary_artist := queenArtist, primary_artists := artists }

/-- A concrete hit of entity kind `t` wrapping `sampleSong artists`
(test fixture). -/
def sampleHit (t : String) (artists : Option (List PrimaryArtist)) : Hit :=
  { highlights := [], index := "song", type := t, result := sampleSong artists }

/-- The `SongResponse` that `buildSongResponse` produces from
`sampleHit "song" (some [queenArtist])` (test fixture). -/
def sampleResponse : SongResponse :=
  { title := "Bohemian Rhapsody", full_title := "Bohemian Rhapsody by Queen",
    url_song := "rel-url", url_lyric := "lyric-url",
    header_image_url := "hdr", header_image_thumbnail_url := "thumb",
    date := "October 31, 1975", artist := [artistSummaryOf queenArtist] }

/-- A concrete payload whose single song section holds one song hit with an
absent primary-artist field (test fixture for the shape-drift claim). -/
def absentArtistsPayload : ApiResponse :=
  { meta := { status := 200 },
    response := { sections := [{ type := "song", hits := [sampleHit "song" none] }] } }

/-! Helper lemmas shared by the claim theorems. -/

/-- Heads of two appends agree when the common left part is nonempty. -/
theorem head_append_of_ne_nil {α : Type} (a b c : List α) (h : a ≠ []) :
    (a ++ b).head? = (a ++ c).head? := by
  cases a with
  | nil => exact absurd rfl h
  | cons x xs => rfl

/-- The head of a filtered list is the first element satisfying the
predicate. -/
theorem head_filter_eq_find (p : α → Bool) (l : List α) :
    (l.filter p).head? = l.find? p := by
  induction l with
  | nil => rfl
  | cons x xs ih =>
    by_cases hx : p x
    · simp [List.filter_cons, List.find?_cons, hx]
    · simp only [Bool.not_eq_true] at hx
      simp [List.filter_cons, List.find?_cons, hx, ih]

/-- The code's section extraction agrees with the spec's first-matching
description. -/
theorem sectionHits_eq_spec (sections : List Section) (tag : String) :
    sectionHits sections tag = specFirstSectionHits sections tag := by
  unfold sectionHits specFirstSectionHits
  rw [head_filter_eq_find]
  cases sections.find? (fun sec => sec.type == tag) <;> rfl

/-- Removing a section whose tag already occurred earlier leaves every
section extraction unchanged. -/
theorem sectionHits_drop_dup (l₁ l₂ : List Section) (s : Section)
    (hdup : ∃ s₀ ∈ l₁, s₀.type = s.type) (tag : String) :
    sectionHits (l₁ ++ s :: l₂) tag = sectionHits (l₁ ++ l₂) tag := by
  unfold sectionHits
  by_cases hs : s.type == tag
  · obtain ⟨s₀, hmem, hty⟩ := hdup
    have hs₀ : s₀.type == tag := by rw [hty]; exact hs
    have hne : l₁.filter (fun sec => sec.type == tag) ≠ [] := by
      intro hnil
      have hin : s₀ ∈ l₁.filter (fun sec => sec.type == tag) :=
        List.mem_filter.mpr ⟨hmem, hs₀⟩
      rw [hnil] at hin
      exact absurd hin (List.not_mem_nil s₀)
    rw [List.filter_append, List.filter_append,
      head_append_of_ne_nil (l₁.filter fun sec => sec.type == tag)
        ((s :: l₂).filter fun sec => sec.type == tag)
        (l₂.filter fun sec => sec.type == tag) hne]
  · simp only [Bool.not_eq_true] at hs
    rw [List.filter_append, List.filter_append, List.filter_cons_of_neg (by simp [hs])]

/-- If the loop over `hits` succeeds, every produced response comes from a
hit of the list, in order of discovery. -/
theorem buildAll_ok_mem (hits : List Hit) (out : List SongResponse)
    (h : buildAll hits = .ok out) :
    ∀ r ∈ out, ∃ hit ∈ hits, buildSongResponse hit = .ok r := by
  induction hits generalizing out with
  | nil =>
    simp only [buildAll] at h
    cases h
    intro r hr
    exact absurd hr (List.not_mem_nil r)
  | cons hit rest ih =>
    simp only [buildAll] at h
    cases hb : buildSongResponse hit with
    | error e => rw [hb] at h; exact absurd h (by simp)
    | ok r₀ =>
      rw [hb] at h
      cases hr : buildAll rest with
      | error e => rw [hr] at h; exact absurd h (by simp)
      | ok rs =>
        rw [hr] at h
        simp only [Except.ok.injEq] at h
        intro r hmem
        rw [← h] at hmem
        rcases List.mem_cons.mp hmem with heq | htail
        · exact ⟨hit, List.mem_cons_self hit rest, heq ▸ hb⟩
        · obtain ⟨hit', hmem', hok⟩ := ih rs hr r htail
          exact ⟨hit', List.mem_cons_of_mem hit hmem', hok⟩

/-- If some hit of the list makes the projection loop throw, the whole loop
throws. -/
theorem buildAll_error_of_mem (hits : List Hit) (hit : Hit) (e : String)
    (hmem : hit ∈ hits) (herr : buildSongResponse hit = .error e) :
    ∃ e', buildAll hits = .error e' := by
  induction hits with
  | nil => exact absurd hmem (List.not_mem_nil hit)
  | cons h₀ rest ih =>
    rcases List.mem_cons.mp hmem with heq | htail
    · exact ⟨e, by simp [buildAll, ← heq, herr]⟩
    · cases hb : buildSongResponse h₀ with
      | error e₀ => exact ⟨e₀, by simp [buildAll, hb]⟩
      | ok r₀ =>
        obtain ⟨e', he'⟩ := ih htail
        exact ⟨e', by simp [buildAll, hb, he']⟩

/-- If the loop over `hits` succeeds, its output is the in-order image of
`hits` under the projection: same length, `i`-th response built from the
`i`-th hit. -/
theorem buildAll_ok_ordered (hits : List Hit) (out : List SongResponse)
    (h : buildAll hits = .ok out) :
    List.Forall₂ (fun hit r => buildSongResponse hit = .ok r) hits out := by
  induction hits generalizing out with
  | nil =>
    simp only [buildAll] at h
    cases h
    exact List.Forall₂.nil
  | cons hit rest ih =>
    simp only [buildAll] at h
    cases hb : buildSongResponse hit with
    | error e => rw [hb] at h; exact absurd h (by simp)
    | ok r₀ =>
      rw [hb] at h
      cases hr : buildAll rest with
      | error e => rw [hr] at h; exact absurd h (by simp)
      | ok rs =>
        rw [hr] at h
        simp only [Except.ok.injEq] at h
        rw [← h]
        exact List.Forall₂.cons hb (ih rs hr)

/-- Whatever `applyLimit` returns is some take-prefix of its input. -/
theorem applyLimit_eq_take (rs : List SongResponse) (opts : Option OptionsParameters)
    (out : List SongResponse) (h : applyLimit rs opts = some out) :
    ∃ n, out = rs.take n := by
  cases opts with
  | none => exact absurd h (by simp [applyLimit])
  | some o =>
    simp only [applyLimit] at h
    by_cases h0 : o.limit ≠ 0
    · rw [if_pos h0] at h
      by_cases hle : (rs.length : Int) ≤ o.limit
      · rw [if_pos hle] at h
        cases h
        exact ⟨rs.length, (List.take_length rs).symm⟩
      · rw [if_neg hle] at h
        cases h
        unfold sliceTo
        by_cases hneg : o.limit < 0
        · rw [if_pos hneg]
          exact ⟨_, rfl⟩
        · rw [if_neg hneg]
          exact ⟨_, rfl⟩
    · rw [if_neg h0] at h
      exact absurd h (by simp)

/-- Whatever `applyLimit` returns is a take-prefix of its input, so its
members are members of the input. -/
theorem applyLimit_mem_sub (rs : List SongResponse) (opts : Option OptionsParameters)
    (out : List SongResponse) (h : applyLimit rs opts = some out) :
    ∀ r ∈ out, r ∈ rs := by
  cases opts with
  | none => exact absurd h (by simp [applyLimit])
  | some o =>
    simp only [applyLimit] at h
    by_cases h0 : o.limit ≠ 0
    · rw [if_pos h0] at h
      by_cases hle : (rs.length : Int) ≤ o.limit
      · rw [if_pos hle] at h
        cases h
        exact fun r hr => hr
      · rw [if_neg hle] at h
        cases h
        unfold sliceTo
        by_cases hneg : o.limit < 0
        · rw [if_pos hneg]
          exact fun r hr => List.mem_of_mem_take hr
        · rw [if_neg hneg]
          exact fun r hr => List.mem_of_mem_take hr
    · rw [if_neg h0] at h
      exact absurd h (by simp)

/-- A duplicate-tagged pair of sections, used by the C1 witness. -/
def dupSection1 : Section :=
  { type := "song", hits := [sampleHit "song" (some [queenArtist])] }

/-- A second section bearing the same tag as `dupSection1`. -/
def dupSection2 : Section :=
  { type := "song", hits := [sampleHit "song" (some [bowieArtist])] }

/-- A concrete payload with one top-hit section holding one song hit. -/
def samplePayload : ApiResponse :=
  { meta := { status := 200 },
    response := { sections := [{ type := "top_hit",
                                 hits := [sampleHit "song" (some [queenArtist])] }] } }

/-- A concrete payload with no sections at all. -/
def emptyPayload : ApiResponse :=
  { meta := { status := 200 }, response := { sections := [] } }

/-!  The claims. -/

/-- C1: the hits `geniusSearch` considers are exactly the hits of the first
section tagged `top_hit`, then of the first section tagged `song`, then of
the first section tagged `lyric`, each in its original intra-section order;
a later section bearing a tag that already occurred contributes nothing; and
every `some` output of `geniusSearch` is a front segment of the in-order
projection of the retained considered hits, so the returned sequence
preserves the discovery order. -/
theorem geniusSearch_section_merge_first_only (sections : List Section) :
    (consideredHits sections =
      specFirstSectionHits sections "top_hit" ++ specFirstSectionHits sections "song" ++
        specFirstSectionHits sections "lyric") ∧
    (∀ (l₁ l₂ : List Section) (s : Section), sections = l₁ ++ s :: l₂ →
      (∃ s₀ ∈ l₁, s₀.type = s.type) →
      consideredHits sections = consideredHits (l₁ ++ l₂)) ∧
    ∀ (data : ApiResponse), data.response.sections = sections →
      ∀ (opts : Option OptionsParameters) (out : List SongResponse),
        geniusSearch (.ok data) opts = some out →
        ∃ rs n, List.Forall₂ (fun hit r => buildSongResponse hit = .ok r)
            ((consideredHits sections).filter fun hit => hit.type == "song") rs ∧
          out = rs.take n := by
  refine ⟨?_, ?_, ?_⟩
  · unfold consideredHits
    rw [sectionHits_eq_spec, sectionHits_eq_spec, sectionHits_eq_spec]
  · rintro l₁ l₂ s rfl hdup
    unfold consideredHits
    rw [sectionHits_drop_dup l₁ l₂ s hdup, sectionHits_drop_dup l₁ l₂ s hdup,
      sectionHits_drop_dup l₁ l₂ s hdup]
  · rintro data rfl opts out h
    simp only [geniusSearch] at h
    cases hn : normalize data with
    | error e => rw [hn] at h; exact absurd h (by simp)
    | ok rs =>
      rw [hn] at h
      obtain ⟨n, hout⟩ := applyLimit_eq_take rs opts out h
      exact ⟨rs, n, buildAll_ok_ordered (songHits data) rs hn, hout⟩

/-- Witness for C1: with two sections both tagged `song`, dropping the second
leaves the considered hits unchanged; and the sample payload's output at
limit `1` is a front segment of the in-order projection of its retained
hits. -/
theorem geniusSearch_section_merge_first_only_witness :
    consideredHits [dupSection1, dupSection2] = consideredHits [dupSection1] ∧
    ∃ rs n, List.Forall₂ (fun hit r => buildSongResponse hit = .ok r)
        ((consideredHits samplePayload.response.sections).filter
          fun hit => hit.type == "song") rs ∧
      [sampleResponse] = rs.take n := by
  constructor
  · have h := (geniusSearch_section_merge_first_only [dupSection1, dupSection2]).2.1
      [dupSection1] [] dupSection2 rfl ⟨dupSection1, List.mem_cons_self _ _, rfl⟩
    simpa using h
  · exact (geniusSearch_section_merge_first_only samplePayload.response.sections).2.2
      samplePayload rfl (some ⟨1⟩) [sampleResponse] (by decide)

/-- C2: every response in a `some` output of `geniusSearch` is the projection
of a considered hit whose entity-kind tag is `"song"`. -/
theorem geniusSearch_entity_filter (data : ApiResponse) (opts : Option OptionsParameters)
    (out : List SongResponse) (h : geniusSearch (.ok data) opts = some out) :
    ∀ r ∈ out, ∃ hit, hit ∈ consideredHits data.response.sections ∧
      hit.type = "song" ∧ buildSongResponse hit = .ok r := by
  intro r hr
  simp only [geniusSearch] at h
  cases hn : normalize data with
  | error e => rw [hn] at h; exact absurd h (by simp)
  | ok rs =>
    rw [hn] at h
    have hsub := applyLimit_mem_sub rs opts out h r hr
    obtain ⟨hit, hmem, hok⟩ := buildAll_ok_mem (songHits data) rs hn r hsub
    unfold songHits at hmem
    have hsplit := List.mem_filter.mp hmem
    exact ⟨hit, hsplit.1, eq_of_beq hsplit.2, hok⟩

/-- Witness for C2: the sample payload's single output response comes from a
song-tagged considered hit. -/
theorem geniusSearch_entity_filter_witness :
    ∃ hit, hit ∈ consideredHits samplePayload.response.sections ∧
      hit.type = "song" ∧ buildSongResponse hit = .ok sampleResponse :=
  geniusSearch_entity_filter samplePayload (some ⟨1⟩) [sampleResponse] (by decide)
    sampleResponse (by decide)

/-- C4: calling `geniusSearch` without the limit option yields the no-value
outcome (`none`), whatever the fetched payload holds. -/
theorem geniusSearch_absent_limit (fetched : Except String ApiResponse) :
    geniusSearch fetched none = none := by
  cases fetched with
  | error e => rfl
  | ok data =>
    simp only [geniusSearch]
    cases normalize data with
    | error e => rfl
    | ok rs => rfl

/-- C8: a transport or parse failure of the fetch step makes `geniusSearch`
return the no-value outcome (`none`); nothing is re-raised. -/
theorem geniusSearch_fetch_failure (e : String) (opts : Option OptionsParameters) :
    geniusSearch (.error e) opts = none := rfl

/-- C10: a zero limit is falsy in JavaScript, so `geniusSearch` with
`limit = 0` yields the no-value outcome, indistinguishable from calling with
no options at all. -/
theorem geniusSearch_zero_limit (fetched : Except String ApiResponse) :
    geniusSearch fetched (some ⟨0⟩) = none ∧
    geniusSearch fetched (some ⟨0⟩) = geniusSearch fetched none := by
  cases fetched with
  | error e => exact ⟨rfl, rfl⟩
  | ok data =>
    simp only [geniusSearch]
    cases normalize data with
    | error e => exact ⟨rfl, rfl⟩
    | ok rs => exact ⟨by simp [applyLimit], by simp [applyLimit]⟩

/-- C3 counterexample: at the supplied limit `L = 0` and a nonempty sequence,
the truncation step yields the no-value outcome, not the first `0` elements
(`some []`) as the claim states for every `L ≥ 0` (JavaScript treats `0` as
falsy in `if (options?.limit)`). -/
theorem applyLimit_zero_counterexample :
    applyLimit [sampleResponse] (some ⟨0⟩) = none ∧
    applyLimit [sampleResponse] (some ⟨0⟩) ≠
      some (([sampleResponse] : List SongResponse).take 0) := by decide

/-- C3 amended: for every supplied limit `L ≥ 1` (truthy in JavaScript), the
truncation returns the full sequence when `L` is at least its length and its
first `L` elements otherwise, so the output length never exceeds `L`. -/
theorem geniusSearch_truncation_law (rs : List SongResponse) (L : Int) (hL : 1 ≤ L) :
    ((rs.length : Int) ≤ L → applyLimit rs (some ⟨L⟩) = some rs) ∧
    ((L : Int) < rs.length → applyLimit rs (some ⟨L⟩) = some (rs.take L.toNat)) ∧
    ∀ out, applyLimit rs (some ⟨L⟩) = some out → (out.length : Int) ≤ L := by
  have h0 : L ≠ 0 := by omega
  refine ⟨?_, ?_, ?_⟩
  · intro hle
    simp [applyLimit, h0, hle]
  · intro hlt
    have hnle : ¬ (rs.length : Int) ≤ L := by omega
    have hnneg : ¬ L < 0 := by omega
    simp [applyLimit, h0, hnle, sliceTo, hnneg]
  · intro out hout
    by_cases hle : (rs.length : Int) ≤ L
    · simp only [applyLimit, if_pos h0, if_pos hle, Option.some.injEq] at hout
      rw [← hout]
      exact hle
    · have hnneg : ¬ L < 0 := by omega
      simp only [applyLimit, if_pos h0, if_neg hle, Option.some.injEq, sliceTo,
        if_neg hnneg] at hout
      rw [← hout]
      simp only [List.length_take]
      omega

/-- Witness for C3 (amended): limit `1` on a two-element sequence returns
exactly its first element. -/
theorem geniusSearch_truncation_law_witness :
    applyLimit [sampleResponse, sampleResponse] (some ⟨1⟩) =
      some (([sampleResponse, sampleResponse] : List SongResponse).take (1 : Int).toNat) :=
  (geniusSearch_truncation_law [sampleResponse, sampleResponse] 1 (by decide)).2.1 (by decide)

/-- C5: a present primary-artist list of length `n` projects to an
`ArtistInfo` list of length `n`, pairwise in order with the four fields
copied verbatim, and an empty list projects to the empty list. -/
theorem projectArtists_order_preserving (l : List PrimaryArtist) :
    ∃ out, projectArtists (some l) = .ok out ∧ out.length = l.length ∧
      List.Forall₂ (fun (a : PrimaryArtist) (s : ArtistInfo) =>
        s.name = a.name ∧ s.is_verified = a.is_verified ∧
        s.header_image_url = a.header_image_url ∧ s.image_url = a.image_url) l out ∧
      (l = [] → out = []) := by
  refine ⟨l.map artistSummaryOf, rfl, by simp, ?_, by rintro rfl; rfl⟩
  induction l with
  | nil => exact List.Forall₂.nil
  | cons a rest ih => exact List.Forall₂.cons ⟨rfl, rfl, rfl, rfl⟩ ih

/-- Witness for C5: the empty primary-artist list projects to the empty
summary list with no error. -/
theorem projectArtists_order_preserving_witness :
    projectArtists (some ([] : List PrimaryArtist)) = .ok [] := by
  obtain ⟨out, h1, -, -, h4⟩ := projectArtists_order_preserving []
  rw [h4 rfl] at h1
  exact h1

/-- C6: a hit whose primary-artist field is present assembles one
`SongResponse` copying title, full title, header image URL, its thumbnail,
and the release-date display string verbatim, sourcing the song-page URL
from `relationships_index_url`, the lyric-page URL from `url`, and attaching
the projected artist summaries. -/
theorem buildSongResponse_fields (hit : Hit) (l : List PrimaryArtist)
    (hl : hit.result.primary_artists = some l) :
    ∃ r, buildSongResponse hit = .ok r ∧
      r.title = hit.result.title ∧
      r.full_title = hit.result.full_title ∧
      r.url_song = hit.result.relationships_index_url ∧
      r.url_lyric = hit.result.url ∧
      r.header_image_url = hit.result.header_image_url ∧
      r.header_image_thumbnail_url = hit.result.header_image_thumbnail_url ∧
      r.date = hit.result.release_date_for_display ∧
      projectArtists hit.result.primary_artists = .ok r.artist := by
  unfold buildSongResponse
  rw [hl]
  simp only [projectArtists]
  exact ⟨_, rfl, rfl, rfl, rfl, rfl, rfl, rfl, rfl, rfl⟩

/-- Witness for C6: the sample hit assembles a response carrying its title
verbatim. -/
theorem buildSongResponse_fields_witness :
    ∃ r, buildSongResponse (sampleHit "song" (some [queenArtist])) = .ok r ∧
      r.title = "Bohemian Rhapsody" := by
  obtain ⟨r, hok, ht, -⟩ :=
    buildSongResponse_fields (sampleHit "song" (some [queenArtist])) [queenArtist] rfl
  exact ⟨r, hok, ht⟩

/-- C7: a payload with no section of a given tag contributes the empty hit
list for that tag, and when none of the three tags occurs at all the
normalisation completes normally with zero results. -/
theorem sectionHits_missing_graceful (data : ApiResponse) (tag : String)
    (hmiss : ∀ s ∈ data.response.sections, s.type ≠ tag) :
    sectionHits data.response.sections tag = [] ∧
    ((∀ s ∈ data.response.sections,
        s.type ≠ "top_hit" ∧ s.type ≠ "song" ∧ s.type ≠ "lyric") →
      normalize data = .ok []) := by
  have hgen : ∀ t : String, (∀ s ∈ data.response.sections, s.type ≠ t) →
      sectionHits data.response.sections t = [] := by
    intro t ht
    unfold sectionHits
    rw [List.filter_eq_nil_iff.mpr fun s hs => by simp [ht s hs]]
    rfl
  refine ⟨hgen tag hmiss, fun hall => ?_⟩
  unfold normalize songHits consideredHits
  rw [hgen "top_hit" fun s hs => (hall s hs).1, hgen "song" fun s hs => (hall s hs).2.1,
    hgen "lyric" fun s hs => (hall s hs).2.2]
  rfl

/-- Witness for C7: the payload with no sections contributes the empty lyric
hit list and normalises to zero results without error. -/
theorem sectionHits_missing_graceful_witness :
    sectionHits emptyPayload.response.sections "lyric" = [] ∧
      normalize emptyPayload = .ok [] := by
  obtain ⟨h1, h2⟩ := sectionHits_missing_graceful emptyPayload "lyric" (by simp [emptyPayload])
  exact ⟨h1, h2 (by simp [emptyPayload])⟩

/-- C9 counterexample: the payload with one retained song hit whose
primary-artist field is absent makes the whole call yield the no-value
outcome, instead of a `SongResult` with an empty artist sequence as the
claim states. -/
theorem geniusSearch_absent_artists_counterexample :
    songHits absentArtistsPayload = [sampleHit "song" none] ∧
    geniusSearch (.ok absentArtistsPayload) (some ⟨5⟩) = none := by decide

/-- C9 amended: a retained song hit whose primary-artist field is absent
makes the projection loop throw; the error is caught at the operation
boundary and the whole call yields the no-value outcome, whatever the
options (the operation is aborted, absence is not treated as empty). -/
theorem geniusSearch_absent_artists_aborts (data : ApiResponse)
    (opts : Option OptionsParameters) (hit : Hit)
    (hmem : hit ∈ songHits data) (habs : hit.result.primary_artists = none) :
    geniusSearch (.ok data) opts = none := by
  have herr : buildSongResponse hit =
      .error "TypeError: song.result.primary_artists is not iterable" := by
    unfold buildSongResponse
    rw [habs]
    rfl
  obtain ⟨e', he'⟩ := buildAll_error_of_mem (songHits data) hit _ hmem herr
  have hnorm : normalize data = .error e' := he'
  simp only [geniusSearch, hnorm]

/-- Witness for C9 (amended): the absent-artists payload yields the no-value
outcome at limit `5`. -/
theorem geniusSearch_absent_artists_aborts_witness :
    geniusSearch (.ok absentArtistsPayload) (some ⟨5⟩) = none :=
  geniusSearch_absent_artists_aborts absentArtistsPayload (some ⟨5⟩)
    (sampleHit "song" none) (by decide) rfl

end Genius
